import Mathlib

/-!
Shallow embedding of `src/main.py` of the repository
`ShadowStrikeHQ/file-content-obfuscator`, together with theorems settling
the specification claims about its two transforms (`substitute_chars`,
`shuffle_chars`) and the orchestrator (`obfuscate_file`).

Modelling conventions:
- A Python string is a sequence of Unicode code points; content is
  `List Int` (code points; `ord` of a Python character always lies in
  `[0, 0x10FFFF]`, captured by `isValidCodePoint` where a claim needs it).
- Python's builtin `chr(n)` raises `ValueError("chr() arg not in range(0x110000)")`
  unless `0 ≤ n ≤ 0x10FFFF`; it is embedded as the fallible `pyChr`.
- `random.shuffle` (CPython) is the Fisher–Yates loop
  `for i in reversed(range(1, len(x))): j = randbelow(i+1); swap x[i] x[j]`;
  the random source is an oracle `rand : Nat → Nat`, reduced mod `i+1` so
  that every oracle is a valid draw sequence.
- The file system is a map from paths to optional contents; `Path.exists()`
  is `fs p ≠ none` and the final `open(path, 'w'); write` is the update
  `writeFS`. Errors are the Python exceptions the code can raise.
-/

/-- Error values the Python code can raise: `FileNotFoundError` and
`ValueError` (carrying its message, since the code raises `ValueError` both
for the configuration check and, via `chr`, for out-of-range code points). -/
inductive PyError where
  | fileNotFound
  | valueError (msg : String)
deriving DecidableEq

/-- Python's maximum code point, `0x10FFFF`. -/
def PY_MAX_CODEPOINT : Int := 1114111

/-- A value that can be `ord(c)` for a character `c` of a Python `str`. -/
def isValidCodePoint (c : Int) : Prop := 0 ≤ c ∧ c ≤ PY_MAX_CODEPOINT

instance (c : Int) : Decidable (isValidCodePoint c) := by
  unfold isValidCodePoint; infer_instance

/-- The message of the `ValueError` CPython's `chr` raises out of range. -/
def chrRangeMsg : String := "chr() arg not in range(0x110000)"

/-- Embedding of Python's `chr` (composed with `ord`): identity on code
points in `[0, 0x10FFFF]`, raises `ValueError` otherwise. -/
def pyChr (n : Int) : Except PyError Int :=
  if 0 ≤ n ∧ n ≤ PY_MAX_CODEPOINT then .ok n
  else .error (.valueError chrRangeMsg)

/-- Embedding of `substitute_chars(content, key)` (src/main.py:24-38):
the loop `for char in content: obfuscated_content += chr(ord(char) + key)`,
raising at the first code point where `chr` raises. -/
def substitute_chars : List Int → Int → Except PyError (List Int)
  | [], _ => .ok []
  | c :: rest, key =>
    match pyChr (c + key) with
    | .error e => .error e
    | .ok d =>
      match substitute_chars rest key with
      | .error e => .error e
      | .ok ds => .ok (d :: ds)

/-- Swap of the elements at positions `i` and `j` of a list
(`x[i], x[j] = x[j], x[i]` on a Python list); out-of-range indices leave
the list unchanged (never reached by the shuffle loop). -/
def listSwap (l : List Int) (i j : Nat) : List Int :=
  match l[i]? with
  | none => l
  | some a =>
    match l[j]? with
    | none => l
    | some b => (l.set i b).set j a

/-- The loop of CPython's `random.shuffle`, run from index `n` down to `1`:
at index `i` it swaps position `i` with position `rand i % (i+1)`
(`_randbelow(i+1)` returns a value in `[0, i]`; the `mod` makes every
oracle a legal draw). -/
def shuffle_loop (rand : Nat → Nat) : Nat → List Int → List Int
  | 0, l => l
  | Nat.succ i, l => shuffle_loop rand i (listSwap l (i + 1) (rand (i + 1) % (i + 2)))

/-- Embedding of `shuffle_chars(content)` (src/main.py:40-52):
`content_list = list(content); random.shuffle(content_list); ''.join(...)`,
with the random source passed as the oracle `rand`. -/
def shuffle_chars (rand : Nat → Nat) (content : List Int) : List Int :=
  shuffle_loop rand (content.length - 1) content

/-- File system state: a map from path strings to optional file contents. -/
def FS : Type := String → Option (List Int)

/-- The message of the `ValueError` raised when neither transform flag is
set (src/main.py:79). -/
def noMethodMsg : String := "No obfuscation method selected.  Use -s or -r to enable."

/-- Writing a file: `open(path, 'w'); write(content)` as a map update. -/
def writeFS (fs : FS) (path : String) (content : List Int) : FS :=
  fun p => if p = path then some content else fs p

/-- Embedding of `obfuscate_file` (src/main.py:55-110). Returns the file
system after the call together with the outcome. Control flow follows the
source: existence check (line 75), then configuration check (line 78),
then read (line 81, merged with the existence lookup since the map holds
the content), then the two optional transforms (lines 86-92, where
`substitute_chars` can raise `ValueError` through `chr`), then the single
write at the end (line 94). Every `raise` path leaves the file system as
it was. -/
def obfuscate_file (fs : FS) (input_file_path output_file_path : String)
    (substitution shuffle : Bool) (key : Int) (rand : Nat → Nat) :
    FS × Except PyError Unit :=
  match fs input_file_path with
  | none => (fs, .error .fileNotFound)
  | some content =>
    if substitution = false ∧ shuffle = false then
      (fs, .error (.valueError noMethodMsg))
    else
      match (if substitution then substitute_chars content key else .ok content) with
      | .error e => (fs, .error e)
      | .ok c1 =>
        let c2 := if shuffle then shuffle_chars rand c1 else c1
        (writeFS fs output_file_path c2, .ok ())

/-! ## Helper lemmas -/

/-- When every shifted code point stays in `chr`'s accepted range,
`substitute_chars` succeeds and maps each code point `c` to `c + key`. -/
theorem substitute_chars_ok (content : List Int) (key : Int)
    (h : ∀ c ∈ content, 0 ≤ c + key ∧ c + key ≤ PY_MAX_CODEPOINT) :
    substitute_chars content key = .ok (content.map (fun c => c + key)) := by
  induction content with
  | nil => rfl
  | cons c rest ih =>
    have hc := h c (List.mem_cons_self c rest)
    have hrest := ih (fun d hd => h d (List.mem_cons_of_mem c hd))
    simp [substitute_chars, pyChr, hc, hrest]

/-- Setting position `i` (holding `v`) to `a` trades one occurrence of `v`
for one occurrence of `a` in the count of any element. -/
theorem count_set_aux {α : Type} [DecidableEq α] (x a v : α) :
    ∀ (l : List α) (i : Nat), l[i]? = some v →
      (l.set i a).count x + (if v = x then 1 else 0)
        = l.count x + (if a = x then 1 else 0)
  | [], i, h => by simp at h
  | b :: t, 0, h => by
    have hb : b = v := by simpa using h
    subst hb
    by_cases hax : a = x <;> by_cases hbx : b = x <;>
      simp [List.count_cons, hax, hbx]
  | b :: t, i + 1, h => by
    have ht : t[i]? = some v := by simpa using h
    have ih := count_set_aux x a v t i ht
    by_cases hbx : b = x <;> simp [List.count_cons, hbx] <;> omega

/-- A swap is a permutation of the original list. -/
theorem listSwap_perm (l : List Int) (i j : Nat) :
    List.Perm (listSwap l i j) l := by
  unfold listSwap
  rcases hi : l[i]? with _ | a
  · exact List.Perm.refl l
  · rcases hj : l[j]? with _ | b
    · exact List.Perm.refl l
    · show List.Perm ((l.set i b).set j a) l
      have hjlen : j < l.length := (List.getElem?_eq_some_iff.mp hj).1
      have hset : (l.set i b)[j]? = some b := by
        by_cases hij : i = j
        · subst hij
          exact List.getElem?_set_self (by simpa using hjlen)
        · rw [List.getElem?_set_ne hij]
          exact hj
      rw [List.perm_iff_count]
      intro x
      have e1 := count_set_aux x b a l i hi
      have e2 := count_set_aux x a b (l.set i b) j hset
      omega

/-- The shuffle loop permutes its argument, for every oracle. -/
theorem shuffle_loop_perm (rand : Nat → Nat) :
    ∀ (n : Nat) (l : List Int), List.Perm (shuffle_loop rand n l) l
  | 0, l => List.Perm.refl l
  | Nat.succ i, l =>
    List.Perm.trans
      (shuffle_loop_perm rand i (listSwap l (i + 1) (rand (i + 1) % (i + 2))))
      (listSwap_perm l (i + 1) (rand (i + 1) % (i + 2)))

/-- The shuffled content is a permutation of the input, for every oracle. -/
theorem shuffle_chars_perm (rand : Nat → Nat) (content : List Int) :
    List.Perm (shuffle_chars rand content) content :=
  shuffle_loop_perm rand (content.length - 1) content

/-- Sample file-system states for concrete instantiations. -/
def fsEmpty : FS := fun _ => none

/-- A file system holding exactly one file. -/
def fsWith (path : String) (content : List Int) : FS :=
  fun p => if p = path then some content else none

/-! ## Claims -/

/-- C1 (counterexample): the claim quantifies over every character and every
integer key, but at `c = 'a'` (97) and `K = -200` the code does not return a
sequence holding `-103`: `chr(-103)` raises `ValueError`, so `substitute_chars`
fails and no output sequence exists. -/
theorem C1_counterexample :
    substitute_chars [97] (-200) = .error (.valueError chrRangeMsg)
    ∧ ¬ ∃ out, substitute_chars [97] (-200) = .ok out :=
  ⟨rfl, fun ⟨_, h⟩ => Except.noConfusion h⟩

/-- C1 (amended): whenever every shifted value `c + K` lies in `chr`'s
accepted range `[0, 0x10FFFF]`, the shift transform succeeds and each output
position `i` holds exactly `content[i] + K` — no clamping, no wraparound. -/
theorem C1_shift_adds_key (content : List Int) (key : Int)
    (h : ∀ c ∈ content, 0 ≤ c + key ∧ c + key ≤ PY_MAX_CODEPOINT) :
    substitute_chars content key = .ok (content.map (fun c => c + key)) :=
  substitute_chars_ok content key h

/-- C1 (witness): the amended theorem at content "abc" and key 1. -/
theorem C1_witness :
    substitute_chars [97, 98, 99] 1 = .ok ([97, 98, 99].map (fun c => c + 1)) :=
  C1_shift_adds_key [97, 98, 99] 1 (by decide)

/-- C2 (confirmed): for every random oracle, the shuffled content is a
permutation of the input (equal character multisets), hence of equal length,
and content of length at most one is returned unchanged. -/
theorem C2_shuffle_preserves_multiset (rand : Nat → Nat) (content : List Int) :
    List.Perm (shuffle_chars rand content) content
    ∧ (shuffle_chars rand content).length = content.length
    ∧ (content.length ≤ 1 → shuffle_chars rand content = content) := by
  refine ⟨shuffle_chars_perm rand content, (shuffle_chars_perm rand content).length_eq, ?_⟩
  intro h
  match content, h with
  | [], _ => rfl
  | [c], _ => rfl

/-- C3 (counterexample): the claim quantifies over every input path, but the
code checks input existence (line 75) before the configuration check
(line 78): with both flags false and a nonexistent input, the call fails
with `FileNotFoundError`, not with the `InvalidConfiguration` `ValueError`. -/
theorem C3_counterexample :
    (obfuscate_file fsEmpty "in.txt" "out.txt" false false 42 (fun _ => 0)).2
      = .error .fileNotFound
    ∧ PyError.fileNotFound ≠ PyError.valueError noMethodMsg :=
  ⟨rfl, by decide⟩

/-- C3 (amended): when the input path exists, invoking the orchestrator with
both transform flags false fails with the `InvalidConfiguration` `ValueError`
and leaves the whole file system — in particular the output file — exactly
as it was; the failure happens before the read and before any write. -/
theorem C3_config_error_when_input_exists (fs : FS) (input output : String)
    (content : List Int) (key : Int) (rand : Nat → Nat)
    (h : fs input = some content) :
    obfuscate_file fs input output false false key rand
      = (fs, .error (.valueError noMethodMsg)) := by
  simp [obfuscate_file, h]

/-- C3 (witness): the amended theorem at a file system holding "a". -/
theorem C3_witness :
    obfuscate_file (fsWith "in.txt" [97]) "in.txt" "out.txt" false false 42 (fun _ => 0)
      = (fsWith "in.txt" [97], .error (.valueError noMethodMsg)) :=
  C3_config_error_when_input_exists (fsWith "in.txt" [97]) "in.txt" "out.txt"
    [97] 42 (fun _ => 0) (by simp [fsWith])

/-- C4 (confirmed): with both flags set, the orchestrator shifts first and
permutes the already-shifted content: the output file receives
`shuffle_chars rand shifted` where `shifted` is the successful result of
`substitute_chars content key`, and that written content is a permutation of
`shifted` (equal character multisets). -/
theorem C4_shift_then_permute (fs : FS) (input output : String)
    (content shifted : List Int) (key : Int) (rand : Nat → Nat)
    (hin : fs input = some content)
    (hshift : substitute_chars content key = .ok shifted) :
    obfuscate_file fs input output true true key rand
      = (writeFS fs output (shuffle_chars rand shifted), .ok ())
    ∧ List.Perm (shuffle_chars rand shifted) shifted := by
  constructor
  · simp [obfuscate_file, hin, hshift]
  · exact shuffle_chars_perm rand shifted

/-- C4 (witness): both flags set on content "ab" with key 1. -/
theorem C4_witness :
    obfuscate_file (fsWith "in.txt" [97, 98]) "in.txt" "out.txt" true true 1 (fun _ => 0)
      = (writeFS (fsWith "in.txt" [97, 98]) "out.txt"
          (shuffle_chars (fun _ => 0) [98, 99]), .ok ())
    ∧ List.Perm (shuffle_chars (fun _ => 0) [98, 99]) [98, 99] :=
  C4_shift_then_permute (fsWith "in.txt" [97, 98]) "in.txt" "out.txt"
    [97, 98] [98, 99] 1 (fun _ => 0) (by simp [fsWith]) rfl

/-- C5 (confirmed): on a nonexistent input path, for every flag and key
combination the orchestrator fails with `FileNotFoundError` and the file
system — in particular the output file — is left exactly as it was. -/
theorem C5_missing_input_not_found (fs : FS) (input output : String)
    (substitution shuffle : Bool) (key : Int) (rand : Nat → Nat)
    (h : fs input = none) :
    obfuscate_file fs input output substitution shuffle key rand
      = (fs, .error .fileNotFound) := by
  simp [obfuscate_file, h]

/-- C5 (witness): the empty file system with both flags set. -/
theorem C5_witness :
    obfuscate_file fsEmpty "missing.txt" "out.txt" true true 42 (fun _ => 0)
      = (fsEmpty, .error .fileNotFound) :=
  C5_missing_input_not_found fsEmpty "missing.txt" "out.txt" true true 42
    (fun _ => 0) rfl

/-- C6 (counterexample): the claim says an out-of-range shift still returns a
sequence carrying the invalid value and "does not fail"; but on content "hi"
with key 0x10FFFF the first shifted value 104 + 1114111 exceeds `chr`'s
range, `chr` raises `ValueError`, and no output sequence is returned. -/
theorem C6_counterexample :
    substitute_chars [104, 105] 1114111 = .error (.valueError chrRangeMsg)
    ∧ ¬ ∃ out, substitute_chars [104, 105] 1114111 = .ok out :=
  ⟨rfl, fun ⟨_, h⟩ => Except.noConfusion h⟩

/-- C6 (amended): the transform itself performs no bounds checking, but
`chr` does: whenever some code point `c` of the content has `c + key`
below 0 or above 0x10FFFF, `substitute_chars` fails with `chr`'s
`ValueError` instead of producing an invalid character value. -/
theorem C6_out_of_range_raises (content : List Int) (key : Int)
    (h : ∃ c ∈ content, c + key < 0 ∨ PY_MAX_CODEPOINT < c + key) :
    substitute_chars content key = .error (.valueError chrRangeMsg) := by
  induction content with
  | nil => rcases h with ⟨c, hc, _⟩; cases hc
  | cons c rest ih =>
    rcases h with ⟨d, hd, hrange⟩
    rcases List.mem_cons.mp hd with rfl | hdrest
    · have hbad : ¬ (0 ≤ d + key ∧ d + key ≤ PY_MAX_CODEPOINT) := by omega
      simp [substitute_chars, pyChr, hbad]
    · by_cases hc : 0 ≤ c + key ∧ c + key ≤ PY_MAX_CODEPOINT
      · simp [substitute_chars, pyChr, hc, ih ⟨d, hdrest, hrange⟩]
      · simp [substitute_chars, pyChr, hc]

/-- C6 (witness): the amended theorem at content "2" with key 2000000. -/
theorem C6_witness :
    substitute_chars [50] 2000000 = .error (.valueError chrRangeMsg) :=
  C6_out_of_range_raises [50] 2000000 ⟨50, by decide, by decide⟩

/-- C7 (counterexample): the claim quantifies over every content and key, but
at content [chr(0)] and key -1 the shifted value -1 is out of `chr`'s range,
so `substitute_chars` raises and there is no output whose length could equal
the input's. -/
theorem C7_counterexample :
    substitute_chars [0] (-1) = .error (.valueError chrRangeMsg)
    ∧ ¬ ∃ out, substitute_chars [0] (-1) = .ok out :=
  ⟨rfl, fun ⟨_, h⟩ => Except.noConfusion h⟩

/-- C7 (amended): whenever the shift transform succeeds, its output has the
same length as the input (in particular, empty input yields empty output);
for shifts leaving `chr`'s range it raises instead of returning. -/
theorem C7_length_preserved_on_success (content : List Int) (key : Int)
    (out : List Int) (h : substitute_chars content key = .ok out) :
    out.length = content.length := by
  induction content generalizing out with
  | nil =>
    simp only [substitute_chars] at h
    cases h
    rfl
  | cons c rest ih =>
    rcases hp : pyChr (c + key) with e | d <;>
      rcases hr : substitute_chars rest key with e2 | ds <;>
        simp [substitute_chars, hp, hr] at h
    subst h
    simp [ih ds hr]

/-- C7 (witness): the amended theorem at content [10] and key 5. -/
theorem C7_witness :
    substitute_chars [10] 5 = .ok [15]
    ∧ ([15] : List Int).length = ([10] : List Int).length :=
  ⟨rfl, C7_length_preserved_on_success [10] 5 [15] rfl⟩

/-- C9 (confirmed): when every code point of the content is valid and stays
valid after adding the key, shifting by `key` and then by `-key` succeeds
and returns the original content. -/
theorem C9_shift_invertible (content : List Int) (key : Int)
    (h : ∀ c ∈ content, isValidCodePoint c ∧ isValidCodePoint (c + key)) :
    ∃ shifted, substitute_chars content key = .ok shifted
      ∧ substitute_chars shifted (-key) = .ok content := by
  refine ⟨content.map (fun c => c + key),
    substitute_chars_ok content key (fun c hc => (h c hc).2), ?_⟩
  have h2 := substitute_chars_ok (content.map (fun c => c + key)) (-key)
    (fun d hd => by
      rcases List.mem_map.mp hd with ⟨c, hc, rfl⟩
      have hv := (h c hc).1
      unfold isValidCodePoint at hv
      constructor <;> omega)
  rw [h2, List.map_map]
  have hid : ((fun d : Int => d + -key) ∘ fun c : Int => c + key) = id := by
    funext c
    simp [Function.comp]
  rw [hid, List.map_id]

/-- C9 (witness): shifting "a" by 5 and back. -/
theorem C9_witness :
    ∃ shifted, substitute_chars [97] 5 = .ok shifted
      ∧ substitute_chars shifted (-5) = .ok [97] :=
  C9_shift_invertible [97] 5 (by decide)

/-- C10 (confirmed): on content whose code points are all valid (as every
Python string's are), shifting with key 0 is the identity. -/
theorem C10_shift_zero_identity (content : List Int)
    (h : ∀ c ∈ content, isValidCodePoint c) :
    substitute_chars content 0 = .ok content := by
  have h0 := substitute_chars_ok content 0 (fun c hc => by
    have hv := h c hc
    unfold isValidCodePoint at hv
    omega)
  simpa using h0

/-- C10 (witness): shifting "he" by 0. -/
theorem C10_witness :
    substitute_chars [104, 101] 0 = .ok [104, 101] :=
  C10_shift_zero_identity [104, 101] (by decide)
